import Mathlib

/-!
Shallow embedding of `src/splitwise.py`, a shared-expense ledger.

Users are identified by their opaque id, modelled as `Nat`. Python float
amounts are modelled as exact rationals `ℚ`. Python dicts are modelled as
insertion-ordered association lists over `Nat` keys: updating an existing
key keeps its position, a new key is appended, matching CPython dict
semantics. Reads of a `defaultdict(float)` default to 0, reads of the outer
`defaultdict(lambda: defaultdict(float))` default to the empty dict.
-/

/-- A Python dict with `Nat` keys as an insertion-ordered association list. -/
abbrev Dict (α : Type) : Type := List (Nat × α)

/-- Membership or plain lookup `d[k]` / `k in d`. -/
def dictLookup {α : Type} : Dict α → Nat → Option α
  | [], _ => none
  | (k, v) :: rest, k' => if k = k' then some v else dictLookup rest k'

/-- Assignment `d[k] = v`: an existing key keeps its position, a new key is
appended at the end, as in CPython. -/
def dictSet {α : Type} : Dict α → Nat → α → Dict α
  | [], k, v => [(k, v)]
  | (k', v') :: rest, k, v =>
      if k' = k then (k', v) :: rest else (k', v') :: dictSet rest k v

/-- Read `d[k]` on a `defaultdict(float)`: the present value or 0. -/
def dGet (d : Dict ℚ) (k : Nat) : ℚ := (dictLookup d k).getD 0

/-- Outer read on a defaultdict of dicts: the present inner dict or empty. -/
def dGetD (bs : Dict (Dict ℚ)) (k : Nat) : Dict ℚ := (dictLookup bs k).getD []

/-- `bs[i][j]` on the nested `defaultdict(lambda: defaultdict(float))`. -/
def bsGet (bs : Dict (Dict ℚ)) (i j : Nat) : ℚ := dGet (dGetD bs i) j

/-- `bs[i][j] += x` on the nested defaultdict (vivifies both levels). -/
def bsAdd (bs : Dict (Dict ℚ)) (i j : Nat) (x : ℚ) : Dict (Dict ℚ) :=
  dictSet bs i (dictSet (dGetD bs i) j (bsGet bs i j + x))

/-- Presence-aware nested lookup: `some v` exactly when key `i` is present in
`bs` and key `j` is present in `bs[i]`. -/
def bsLookup (bs : Dict (Dict ℚ)) (i j : Nat) : Option ℚ :=
  (dictLookup bs i).bind (fun inner => dictLookup inner j)

/-- Python `sum(d.values())`. -/
def sumValues (d : Dict ℚ) : ℚ := (d.map Prod.snd).sum

/-- A Python dict comprehension: successive writes into a fresh dict. -/
def pyDictComp (ps : List (Nat × ℚ)) : Dict ℚ :=
  ps.foldl (fun d kv => dictSet d kv.1 kv.2) []

/-- The exceptions splitwise.py raises, one constructor per distinct raise
site or built-in error reached by the code. -/
inductive Err : Type
  | unknownSplitType
      -- ValueError, src 42: Invalid split type
  | missingCustomShares
      -- ValueError, src 58 and 68: Custom splits required
  | splitSumMismatch
      -- ValueError, src 60: Custom split amounts do not sum to total amount
  | percentageSumMismatch
      -- ValueError, src 70: Percentage splits must sum to 100 percent
  | noOutstandingBalance
      -- ValueError, src 126: No outstanding balance between these users
  | settlementExceedsBalance
      -- ValueError, src 124: Settlement amount exceeds the outstanding balance
  | zeroDivisionErr
      -- ZeroDivisionError from amount / len(users) on an empty user list, src 50
  | typeMismatchErr
      -- TypeError: HeapSettlement.settle (src 110) lacks self, so the bound
      -- keyword call at src 188 passes the instance into payer and collides
  deriving DecidableEq

/-- The SplitType StrEnum, src 23-26. -/
inductive SplitType : Type
  | EQUAL
  | EXACT
  | PERCENTAGE
  deriving DecidableEq

/-- The SettlementAlgo StrEnum, src 28-30. -/
inductive SettlementAlgo : Type
  | HEAP_BASED
  | BRUTE_FORCE
  deriving DecidableEq

/-- EqualSplit.split, src 49-51: per_head = amount / len(users) is computed
first (an empty user list raises ZeroDivisionError), then one share per user
in the list, including the payer. -/
def EqualSplit.split (payer : Nat) (amount : ℚ) (users : List Nat)
    (custom_splits : Option (Dict ℚ)) : Except Err (Dict ℚ) :=
  if users.length = 0 then .error .zeroDivisionErr
  else .ok (pyDictComp (users.map (fun u => (u, amount / (users.length : ℚ)))))

/-- ExactSplit.split, src 56-61: `if not custom_splits` rejects both None and
an empty dict, then the values must sum to the amount. -/
def ExactSplit.split (payer : Nat) (amount : ℚ) (users : List Nat)
    (custom_splits : Option (Dict ℚ)) : Except Err (Dict ℚ) :=
  match custom_splits with
  | none => .error .missingCustomShares
  | some cs =>
      if cs = [] then .error .missingCustomShares
      else if sumValues cs ≠ amount then .error .splitSumMismatch
      else .ok cs

/-- PercentageSplit.split, src 66-71: `if not custom_splits` rejects both
None and an empty dict, the percentages must sum to 100, and each listed
user gets percent / 100 * amount. -/
def PercentageSplit.split (payer : Nat) (amount : ℚ) (users : List Nat)
    (custom_splits : Option (Dict ℚ)) : Except Err (Dict ℚ) :=
  match custom_splits with
  | none => .error .missingCustomShares
  | some cs =>
      if cs = [] then .error .missingCustomShares
      else if sumValues cs ≠ 100 then .error .percentageSumMismatch
      else .ok (pyDictComp (cs.map (fun kv => (kv.1, kv.2 / 100 * amount))))

/-- SplitStrategy.get_strategy, src 40-43: registry lookup keyed by the
string value of the StrEnum member; the registry holds exactly the three
strategies registered at src 53, 63 and 73; an unknown key raises. -/
def SplitStrategy.get_strategy (split_type : String) : Except Err SplitType :=
  if split_type = "EQUAL" then .ok .EQUAL
  else if split_type = "EXACT" then .ok .EXACT
  else if split_type = "PERCENTAGE" then .ok .PERCENTAGE
  else .error .unknownSplitType

/-- Dispatch of the polymorphic SplitStrategy.split on the strategy class. -/
def runSplit : SplitType → Nat → ℚ → List Nat → Option (Dict ℚ) →
    Except Err (Dict ℚ)
  | .EQUAL => EqualSplit.split
  | .EXACT => ExactSplit.split
  | .PERCENTAGE => PercentageSplit.split

/-- An Expense record, src 132-138, keeping the fields the core reads. -/
structure Expense where
  payer : Nat
  amount : ℚ
  splits : Dict ℚ
  deriving DecidableEq

/-- Expense construction, src 133-138: the splits are computed by the active
strategy inside the constructor, so a strategy exception propagates and no
Expense is produced. -/
def mkExpense (payer : Nat) (amount : ℚ) (users : List Nat) (strat : SplitType)
    (custom_splits : Option (Dict ℚ)) : Except Err Expense :=
  match runSplit strat payer amount users custom_splits with
  | .error e => .error e
  | .ok s => .ok ⟨payer, amount, s⟩

/-- Expense.apply_split, src 140-145, acting on the store of all user balance
maps, keyed by user id. The share of the payer is skipped; for each other
user, `user.balance[payer.id] -= share` then `payer.balance[user.id] += share`.
Distinct User objects carry distinct ids, so the identity comparison
`user == self.payer` is the id comparison. -/
def Expense.apply_split (e : Expense) (balances : Dict (Dict ℚ)) :
    Dict (Dict ℚ) :=
  e.splits.foldl
    (fun b kv =>
      if kv.1 = e.payer then b
      else bsAdd (bsAdd b kv.1 e.payer (-kv.2)) e.payer kv.1 kv.2)
    balances

/-- A UserGroup, src 149-174: the participant list, the fixed settlement
algorithm, the store of per-user balance maps (each user object owns one
`defaultdict(float)`, here gathered into one map keyed by user id, a missing
entry standing for the empty map), the expense history and the nested
balance sheet. -/
structure UserGroup where
  users : List Nat
  settlement_algo : SettlementAlgo
  balances : Dict (Dict ℚ)
  expenses : List Expense
  balance_sheet : Dict (Dict ℚ)
  deriving DecidableEq

/-- UserGroup.add_expense, src 176-184. Both raising points (the strategy
registry lookup and the Expense construction) come before every mutation, so
an error leaves the group exactly as it was. On success the split is applied
to the user balances, the expense is appended, and for every non-payer user
in the splits, `balance_sheet[user.id][payer.id] += share`. -/
def UserGroup.add_expense (g : UserGroup) (payer : Nat) (amount : ℚ)
    (split_type : String) (custom_splits : Option (Dict ℚ)) :
    UserGroup × Option Err :=
  match SplitStrategy.get_strategy split_type with
  | .error e => (g, some e)
  | .ok strat =>
      match mkExpense payer amount g.users strat custom_splits with
      | .error e => (g, some e)
      | .ok expense =>
          let balances := expense.apply_split g.balances
          let sheet := expense.splits.foldl
            (fun bs kv => if kv.1 ≠ payer then bsAdd bs kv.1 payer kv.2 else bs)
            g.balance_sheet
          ({ g with
              balances := balances,
              expenses := g.expenses ++ [expense],
              balance_sheet := sheet }, none)

/-- BruteForceSettlement.settle, src 117-126. The membership checks use plain
`in`, which does not vivify; both raise sites come before every mutation. On
success `balance_sheet[payer.id][payee.id] -= amount`, then
`payee.balance[payer.id] -= amount`, then `payer.balance[payee.id] -= amount`,
exactly as written in the source. -/
def BruteForceSettlement.settle (g : UserGroup) (payer payee : Nat)
    (amount : ℚ) : UserGroup × Option Err :=
  match dictLookup g.balance_sheet payer with
  | none => (g, some .noOutstandingBalance)
  | some inner =>
      match dictLookup inner payee with
      | none => (g, some .noOutstandingBalance)
      | some outstanding =>
          if outstanding ≥ amount then
            ({ g with
                balance_sheet := dictSet g.balance_sheet payer
                  (dictSet inner payee (outstanding - amount)),
                balances := bsAdd (bsAdd g.balances payee payer (-amount))
                  payer payee (-amount) }, none)
          else (g, some .settlementExceedsBalance)

/-- UserGroup.settle_expense, src 186-188: the registry holds both algorithms
(src 113 and 128), so the lookup cannot fail; the HEAP_BASED branch raises
TypeError from the keyword call (HeapSettlement.settle lacks self) before any
mutation. -/
def UserGroup.settle_expense (g : UserGroup) (payer payee : Nat) (amount : ℚ) :
    UserGroup × Option Err :=
  match g.settlement_algo with
  | .HEAP_BASED => (g, some .typeMismatchErr)
  | .BRUTE_FORCE => BruteForceSettlement.settle g payer payee amount

/-- UserGroup.get_passbook, src 190-191, as a value: `dict(balance_sheet)`
copies the outer mapping. The sharing of the inner dicts between the copy
and the ledger is modelled by SheetRefs below. -/
def UserGroup.get_passbook (g : UserGroup) : Dict (Dict ℚ) := g.balance_sheet

/-- The conservation quantity of the spec: the sum, over every user, of all
values in that user balance map. -/
def totalBalance (g : UserGroup) : ℚ :=
  (g.balances.map (fun kv => sumValues kv.2)).sum

/-- Reference-level model of the nested balance_sheet: the inner dicts live
in a store and the outer mapping holds references, i.e. store indices. -/
structure SheetRefs where
  store : List (Dict ℚ)
  outer : List (Nat × Nat)
  deriving DecidableEq

/-- The dict-of-dicts value a SheetRefs denotes. -/
def SheetRefs.view (s : SheetRefs) : Dict (Dict ℚ) :=
  s.outer.map (fun kv => (kv.1, s.store.getD kv.2 []))

/-- The world after `pb = group.get_passbook()`: `dict(balance_sheet)` copies
the outer mapping into pbOuter but shares the store of inner dicts. -/
structure PassbookWorld where
  store : List (Dict ℚ)
  ledgerOuter : List (Nat × Nat)
  pbOuter : List (Nat × Nat)
  deriving DecidableEq

/-- get_passbook under reference semantics: a shallow copy. -/
def mkPassbook (s : SheetRefs) : PassbookWorld := ⟨s.store, s.outer, s.outer⟩

/-- The balance sheet the ledger itself sees in a PassbookWorld. -/
def ledgerSheet (w : PassbookWorld) : Dict (Dict ℚ) :=
  SheetRefs.view ⟨w.store, w.ledgerOuter⟩

/-- `pb[k] = d`: rebinding a top-level key of the copy to a fresh dict,
allocated in a fresh store cell. -/
def pbAssignOuter (w : PassbookWorld) (k : Nat) (d : Dict ℚ) : PassbookWorld :=
  ⟨w.store ++ [d], w.ledgerOuter, dictSet w.pbOuter k w.store.length⟩

/-- `pb.pop(k)` / `del pb[k]`: removing a top-level key of the copy. -/
def pbDeleteOuter (w : PassbookWorld) (k : Nat) : PassbookWorld :=
  ⟨w.store, w.ledgerOuter, w.pbOuter.filter (fun kv => kv.1 ≠ k)⟩

/-- `pb[k][j] = v`: an in-place write through the shared inner dict. A
missing k raises KeyError on the plain copy and changes nothing. -/
def pbAssignInner (w : PassbookWorld) (k j : Nat) (v : ℚ) : PassbookWorld :=
  match dictLookup w.pbOuter k with
  | none => w
  | some r =>
      ⟨w.store.set r (dictSet (w.store.getD r []) j v), w.ledgerOuter, w.pbOuter⟩

/-- The demo group of src 199-204, with ids Alice = 0, Bob = 1, Charlie = 2
and the BRUTE_FORCE settlement algorithm. -/
def tripGroup : UserGroup :=
  { users := [0, 1, 2], settlement_algo := .BRUTE_FORCE,
    balances := [], expenses := [], balance_sheet := [] }

/-- The group after scenario A: add_expense(payer = Alice, 300, EQUAL). -/
def groupA : UserGroup := (tripGroup.add_expense 0 300 "EQUAL" none).1

/-- A two-user group, Alice = 0 and Bob = 1, for the conservation run. -/
def pairGroup : UserGroup :=
  { users := [0, 1], settlement_algo := .BRUTE_FORCE,
    balances := [], expenses := [], balance_sheet := [] }

/-- The pair group after add_expense(payer = Alice, 100, EQUAL). -/
def pairGroupA : UserGroup := (pairGroup.add_expense 0 100 "EQUAL" none).1

/-- The reference-semantics balance sheet after scenario A: one store cell
per debtor, matching the value-level groupA sheet. -/
def sheetRefsA : SheetRefs :=
  ⟨[[(0, 100)], [(0, 100)]], [(1, 0), (2, 1)]⟩

/-- A reachable state with one outstanding entry: Bob owes Alice 100. -/
def settleW : UserGroup :=
  { users := [0, 1], settlement_algo := .BRUTE_FORCE,
    balances := [], expenses := [], balance_sheet := [(1, [(0, 100)])] }

/-- A state with two balance-sheet pairs and one unrelated balance entry,
for observing what a settlement leaves untouched. -/
def frameW : UserGroup :=
  { users := [0, 1, 2], settlement_algo := .BRUTE_FORCE,
    balances := [(0, [(2, 7)])], expenses := [],
    balance_sheet := [(1, [(0, 100)]), (2, [(0, 30)])] }

/-- The expense record scenario A produces. -/
def expenseA : Expense := ⟨0, 300, [(0, 100), (1, 100), (2, 100)]⟩

/-! ### Helper lemmas about the dict model -/

theorem dictLookup_set_self {α : Type} (d : Dict α) (k : Nat) (v : α) :
    dictLookup (dictSet d k v) k = some v := by
  induction d with
  | nil => simp [dictSet, dictLookup]
  | cons kv rest ih =>
      obtain ⟨k', v'⟩ := kv
      by_cases h : k' = k
      · subst h
        simp [dictSet, dictLookup]
      · simp [dictSet, dictLookup, h, ih]

theorem dictLookup_set_ne {α : Type} (d : Dict α) (k : Nat) (v : α) (k' : Nat)
    (h : k' ≠ k) : dictLookup (dictSet d k v) k' = dictLookup d k' := by
  have h' : k ≠ k' := fun hh => h hh.symm
  induction d with
  | nil => simp [dictSet, dictLookup, h']
  | cons kv rest ih =>
      obtain ⟨k0, v0⟩ := kv
      by_cases h0 : k0 = k
      · subst h0
        simp [dictSet, dictLookup, h']
      · simp [dictSet, dictLookup, h0, ih]

theorem dictSet_of_lookup_none {α : Type} (d : Dict α) (k : Nat) (v : α)
    (h : dictLookup d k = none) : dictSet d k v = d ++ [(k, v)] := by
  induction d with
  | nil => simp [dictSet]
  | cons kv rest ih =>
      obtain ⟨k0, v0⟩ := kv
      by_cases h0 : k0 = k
      · subst h0
        simp [dictLookup] at h
      · simp [dictLookup, h0] at h
        simp [dictSet, h0, ih h]

theorem dictLookup_append_of_none {α : Type} (d e : Dict α) (k : Nat)
    (h : dictLookup d k = none) :
    dictLookup (d ++ e) k = dictLookup e k := by
  induction d with
  | nil => simp
  | cons kv rest ih =>
      obtain ⟨k0, v0⟩ := kv
      by_cases h0 : k0 = k
      · subst h0
        simp [dictLookup] at h
      · simp [dictLookup, h0] at h ⊢
        exact ih h

theorem pyDictComp_foldl (ps : List (Nat × ℚ)) :
    ∀ d : Dict ℚ, (∀ kv ∈ ps, dictLookup d kv.1 = none) →
      (ps.map Prod.fst).Nodup →
      ps.foldl (fun acc kv => dictSet acc kv.1 kv.2) d = d ++ ps := by
  induction ps with
  | nil => intro d _ _; simp
  | cons kv rest ih =>
      intro d hfresh hnd
      have hd : dictLookup d kv.1 = none := hfresh kv (by simp)
      have hset : dictSet d kv.1 kv.2 = d ++ [(kv.1, kv.2)] :=
        dictSet_of_lookup_none d kv.1 kv.2 hd
      simp only [List.map_cons, List.nodup_cons] at hnd
      have hfresh' : ∀ kv' ∈ rest, dictLookup (d ++ [(kv.1, kv.2)]) kv'.1 = none := by
        intro kv' hmem
        have h1 : dictLookup d kv'.1 = none := hfresh kv' (by simp [hmem])
        rw [dictLookup_append_of_none d _ _ h1]
        have hne : kv.1 ≠ kv'.1 := by
          intro heq
          exact hnd.1 (heq ▸ List.mem_map_of_mem Prod.fst hmem)
        simp [dictLookup, hne]
      calc (kv :: rest).foldl (fun acc kv => dictSet acc kv.1 kv.2) d
          = rest.foldl (fun acc kv => dictSet acc kv.1 kv.2) (d ++ [(kv.1, kv.2)]) := by
            simp [List.foldl_cons, hset]
        _ = (d ++ [(kv.1, kv.2)]) ++ rest := ih _ hfresh' hnd.2
        _ = d ++ (kv :: rest) := by simp

theorem pyDictComp_eq_self (ps : List (Nat × ℚ))
    (h : (ps.map Prod.fst).Nodup) : pyDictComp ps = ps := by
  have := pyDictComp_foldl ps [] (by intro kv _; rfl) h
  simpa [pyDictComp] using this

theorem bsGet_bsAdd_ne (bs : Dict (Dict ℚ)) (i j : Nat) (x : ℚ) (u k : Nat)
    (h : ¬(u = i ∧ k = j)) : bsGet (bsAdd bs i j x) u k = bsGet bs u k := by
  by_cases hu : u = i
  · subst hu
    have hk : k ≠ j := fun hk => h ⟨rfl, hk⟩
    simp [bsGet, bsAdd, dGetD, dictLookup_set_self, dGet, dictLookup_set_ne _ _ _ _ hk]
  · simp [bsGet, bsAdd, dGetD, dGet, dictLookup_set_ne _ _ _ _ hu]

/-! ### Claim theorems -/

set_option maxRecDepth 8000

/-- Claim C1 (code_bug evaluation). Conservation fails on the code: on a
fresh two-user ledger, add_expense(payer = Alice, 100, EQUAL) keeps the sum
of all balance-map values at 0, but the following successful
settle_expense(payer = Bob, payee = Alice, 50) leaves that sum at -100
instead of 0, because BruteForceSettlement.settle decrements
payer.balance[payee.id] instead of incrementing it. -/
theorem conservation_violation_eval :
    (pairGroup.add_expense 0 100 "EQUAL" none).2 = none ∧
    totalBalance pairGroupA = 0 ∧
    (pairGroupA.settle_expense 1 0 50).2 = none ∧
    totalBalance (pairGroupA.settle_expense 1 0 50).1 = -100 ∧
    totalBalance (pairGroupA.settle_expense 1 0 50).1 ≠ 0 := by
  norm_num [pairGroupA, pairGroup, UserGroup.add_expense,
    SplitStrategy.get_strategy, mkExpense, runSplit, EqualSplit.split,
    pyDictComp, dictSet, dictLookup, Expense.apply_split, bsAdd, bsGet,
    dGet, dGetD, UserGroup.settle_expense, BruteForceSettlement.settle,
    totalBalance, sumValues]

/-- Claim C2 (counterexample). On a fresh ledger the pair (Bob, Alice) has
no balance-sheet entry, so the entry counts as 0 and amount = 100 exceeds
it; the claim then demands SettlementExceedsBalance, but the code raises
NoOutstandingBalance. -/
theorem settle_absent_entry_error :
    UserGroup.settle_expense tripGroup 1 0 100 =
      (tripGroup, some .noOutstandingBalance) ∧
    (100 : ℚ) > bsGet tripGroup.balance_sheet 1 0 ∧
    Err.noOutstandingBalance ≠ Err.settlementExceedsBalance := by
  refine ⟨rfl, ?_, by decide⟩
  norm_num [tripGroup, bsGet, dGet, dGetD, dictLookup]

/-- Claim C3 (counterexample). After scenario A and a full repayment of the
100 that Bob owes Alice, repeating the identical settle call raises
SettlementExceedsBalance, not the NoOutstandingBalance the claim states:
the settled entry remains present with value 0. -/
theorem repeat_settle_error_cex :
    ((groupA.settle_expense 1 0 100).1.settle_expense 1 0 100).2 =
      some .settlementExceedsBalance ∧
    some Err.settlementExceedsBalance ≠ some Err.noOutstandingBalance := by
  refine ⟨?_, by decide⟩
  norm_num [groupA, tripGroup, UserGroup.add_expense,
    SplitStrategy.get_strategy, mkExpense, runSplit, EqualSplit.split,
    pyDictComp, dictSet, dictLookup, Expense.apply_split, bsAdd, bsGet,
    dGet, dGetD, UserGroup.settle_expense, BruteForceSettlement.settle]

/-- Claim C3 (amended). With balance_sheet[Bob][Alice] = 100 after scenario
A, settle(payer = Bob, payee = Alice, 100) succeeds and the entry becomes 0
but stays present; repeating the identical call fails with
SettlementExceedsBalance, since the present zero entry passes the
membership check and 0 < 100. -/
theorem repeat_settle_after_full_repayment :
    bsLookup groupA.balance_sheet 1 0 = some 100 ∧
    (groupA.settle_expense 1 0 100).2 = none ∧
    bsLookup (groupA.settle_expense 1 0 100).1.balance_sheet 1 0 = some 0 ∧
    ((groupA.settle_expense 1 0 100).1.settle_expense 1 0 100).2 =
      some .settlementExceedsBalance := by
  norm_num [groupA, tripGroup, UserGroup.add_expense,
    SplitStrategy.get_strategy, mkExpense, runSplit, EqualSplit.split,
    pyDictComp, dictSet, dictLookup, Expense.apply_split, bsAdd, bsGet,
    bsLookup, dGet, dGetD, UserGroup.settle_expense,
    BruteForceSettlement.settle]

/-- Claim C5. On the fresh three-user group, add_expense(payer = Alice,
300, EQUAL) succeeds; the computed splits charge every participant,
including the payer, 300 / 3 = 100; the passbook is exactly
Bob owes Alice 100 and Charlie owes Alice 100, and the payer Alice gets no
balance-sheet entry of her own. -/
theorem equal_split_scenario_A :
    (tripGroup.add_expense 0 300 "EQUAL" none).2 = none ∧
    UserGroup.get_passbook groupA = [(1, [(0, 100)]), (2, [(0, 100)])] ∧
    groupA.expenses.map Expense.splits = [[(0, 100), (1, 100), (2, 100)]] ∧
    dictLookup (UserGroup.get_passbook groupA) 0 = none := by
  norm_num [groupA, tripGroup, UserGroup.add_expense,
    SplitStrategy.get_strategy, mkExpense, runSplit, EqualSplit.split,
    pyDictComp, dictSet, dictLookup, Expense.apply_split, bsAdd, bsGet,
    dGet, dGetD, UserGroup.get_passbook]

/-- Claim C7 (counterexample). The reference-level sheet after scenario A
denotes exactly the passbook of groupA; writing pb[Bob][Alice] = 0 through
the structure returned by get_passbook changes the balance sheet the ledger
itself sees, because dict(balance_sheet) shares the inner dicts. -/
theorem passbook_inner_write_cex :
    SheetRefs.view sheetRefsA = UserGroup.get_passbook groupA ∧
    ledgerSheet (pbAssignInner (mkPassbook sheetRefsA) 1 0 0) ≠
      SheetRefs.view sheetRefsA := by
  constructor
  · norm_num [sheetRefsA, SheetRefs.view, groupA, tripGroup,
      UserGroup.add_expense, SplitStrategy.get_strategy, mkExpense, runSplit,
      EqualSplit.split, pyDictComp, dictSet, dictLookup, Expense.apply_split,
      bsAdd, bsGet, dGet, dGetD, UserGroup.get_passbook]
  · intro hcontra
    have h0 : dGet (dGetD (ledgerSheet (pbAssignInner (mkPassbook sheetRefsA) 1 0 0)) 1) 0 =
        dGet (dGetD (SheetRefs.view sheetRefsA) 1) 0 := by rw [hcontra]
    norm_num [sheetRefsA, SheetRefs.view, ledgerSheet, pbAssignInner,
      mkPassbook, dictLookup, dictSet, dGet, dGetD] at h0

/-- Claim C8 (counterexample). An empty custom_shares dict is supplied, its
percentages sum to 0 and not 100, yet PercentageSplit raises
MissingCustomShares, not the PercentageSumMismatch the claim demands. -/
theorem percentage_empty_shares_cex :
    PercentageSplit.split 0 100 [0, 1] (some []) =
      .error .missingCustomShares ∧
    sumValues ([] : Dict ℚ) ≠ 100 ∧
    Err.missingCustomShares ≠ Err.percentageSumMismatch := by
  refine ⟨rfl, by norm_num [sumValues], by decide⟩

/-- Claim C9. For both ExactSplit and PercentageSplit, an empty
custom_splits dict is falsy in Python, so `if not custom_splits` raises
MissingCustomShares before any sum check runs, for every payer, amount and
user list, even though the empty values sum to 0 and would reconcile with
amount 0 under the Exact check. -/
theorem empty_custom_shares_missing :
    ∀ (payer : Nat) (amount : ℚ) (users : List Nat),
      ExactSplit.split payer amount users (some []) =
        .error .missingCustomShares ∧
      PercentageSplit.split payer amount users (some []) =
        .error .missingCustomShares ∧
      sumValues ([] : Dict ℚ) = 0 := by
  intro payer amount users
  exact ⟨rfl, rfl, rfl⟩

theorem map_fst_pair (users : List Nat) (f : Nat → ℚ) :
    (users.map (fun u => (u, f u))).map Prod.fst = users := by
  induction users with
  | nil => rfl
  | cons u rest ih => simp [ih]

theorem map_snd_pair (users : List Nat) (f : Nat → ℚ) :
    (users.map (fun u => (u, f u))).map Prod.snd = users.map f := by
  induction users with
  | nil => rfl
  | cons u rest ih => simp [ih]

theorem map_fst_share (cs : List (Nat × ℚ)) (a : ℚ) :
    (cs.map (fun kv => (kv.1, kv.2 / 100 * a))).map Prod.fst =
      cs.map Prod.fst := by
  induction cs with
  | nil => rfl
  | cons kv rest ih => simp [ih]

theorem map_snd_share (cs : List (Nat × ℚ)) (a : ℚ) :
    (cs.map (fun kv => (kv.1, kv.2 / 100 * a))).map Prod.snd =
      cs.map (fun kv => kv.2 / 100 * a) := by
  induction cs with
  | nil => rfl
  | cons kv rest ih => simp [ih]

theorem sum_map_share (cs : List (Nat × ℚ)) (a : ℚ) :
    (cs.map (fun kv => kv.2 / 100 * a)).sum = sumValues cs / 100 * a := by
  induction cs with
  | nil => simp [sumValues]
  | cons kv rest ih =>
      have h := ih
      simp only [sumValues, List.map_cons, List.sum_cons] at h ⊢
      rw [h, add_div, add_mul]


/-- Claim C2 (amended). Under the BRUTE_FORCE policy: when the ordered pair
(payer, payee) has a recorded balance-sheet entry, even a zero one,
settle_expense fails with SettlementExceedsBalance exactly when the amount
exceeds the entry and otherwise succeeds leaving the entry at old - amount;
when the pair has no recorded entry, it fails with NoOutstandingBalance
whatever the amount. -/
theorem settle_spec_amended (g : UserGroup) (p q : Nat) (a : ℚ)
    (halgo : g.settlement_algo = .BRUTE_FORCE) :
    (∀ old : ℚ, bsLookup g.balance_sheet p q = some old →
      (a > old →
        UserGroup.settle_expense g p q a = (g, some .settlementExceedsBalance)) ∧
      (a ≤ old →
        (UserGroup.settle_expense g p q a).2 = none ∧
        bsLookup (UserGroup.settle_expense g p q a).1.balance_sheet p q =
          some (old - a))) ∧
    (bsLookup g.balance_sheet p q = none →
      UserGroup.settle_expense g p q a = (g, some .noOutstandingBalance)) := by
  obtain ⟨us, alg, bal, exps, bs⟩ := g
  simp only at halgo
  subst halgo
  cases hbs : dictLookup bs p with
  | none =>
      simp [UserGroup.settle_expense, BruteForceSettlement.settle, bsLookup, hbs]
  | some inner =>
      cases hin : dictLookup inner q with
      | none =>
          simp [UserGroup.settle_expense, BruteForceSettlement.settle,
            bsLookup, hbs, hin]
      | some outst =>
          simp only [UserGroup.settle_expense, BruteForceSettlement.settle,
            bsLookup, hbs, hin, Option.some_bind]
          constructor
          · intro old hold
            simp only [hin, Option.some_bind, Option.some.injEq] at hold
            subst hold
            constructor
            · intro hgt
              rw [if_neg (not_le.mpr hgt)]
            · intro hle
              rw [if_pos hle]
              exact ⟨rfl, by simp [bsLookup, dictLookup_set_self]⟩
          · intro hnone
            exact absurd hnone (by simp)

/-- Witness for settle_spec_amended at a concrete reachable state: Bob owes
Alice 100 and the settlement of 200 exceeds it. -/
theorem settle_spec_amended_witness :
    UserGroup.settle_expense settleW 1 0 200 =
      (settleW, some .settlementExceedsBalance) :=
  ((settle_spec_amended settleW 1 0 200 rfl).1 100 rfl).1 (by norm_num)

/-- Claim C4. For every successfully constructed Expense, under each of the
three split policies, the values of its splits map sum to its amount. The
user list and the supplied custom dict are well formed, i.e. duplicate-free
in their keys, as Python participant sets and dicts are. -/
theorem split_sum_law (strat : SplitType) (payer : Nat) (amount : ℚ)
    (users : List Nat) (custom_splits : Option (Dict ℚ)) (e : Expense)
    (hu : users.Nodup)
    (hc : ∀ cs, custom_splits = some cs → (cs.map Prod.fst).Nodup)
    (he : mkExpense payer amount users strat custom_splits = .ok e) :
    sumValues e.splits = e.amount := by
  cases hr : runSplit strat payer amount users custom_splits with
  | error err =>
      simp [mkExpense, hr] at he
  | ok s =>
      simp only [mkExpense, hr] at he
      rw [Except.ok.injEq] at he
      subst he
      simp only
      cases strat with
      | EQUAL =>
          simp only [runSplit, EqualSplit.split] at hr
          by_cases hlen : users.length = 0
          · simp [hlen] at hr
          · rw [if_neg hlen, Except.ok.injEq] at hr
            subst hr
            rw [pyDictComp_eq_self _ (by rw [map_fst_pair]; exact hu)]
            rw [sumValues, map_snd_pair]
            have hn : (users.length : ℚ) ≠ 0 := Nat.cast_ne_zero.mpr hlen
            calc (users.map (fun _ => amount / (users.length : ℚ))).sum
                = users.length • (amount / (users.length : ℚ)) := by
                  rw [List.map_const', List.sum_replicate]
              _ = (users.length : ℚ) * (amount / (users.length : ℚ)) := by
                  rw [nsmul_eq_mul]
              _ = amount := by
                  rw [mul_comm, div_mul_cancel₀ amount hn]
      | EXACT =>
          cases custom_splits with
          | none => simp [runSplit, ExactSplit.split] at hr
          | some cs =>
              simp only [runSplit, ExactSplit.split] at hr
              by_cases hemp : cs = []
              · simp [hemp] at hr
              · rw [if_neg hemp] at hr
                by_cases hsum : sumValues cs ≠ amount
                · rw [if_pos hsum] at hr
                  simp at hr
                · rw [if_neg hsum, Except.ok.injEq] at hr
                  subst hr
                  exact not_ne_iff.mp hsum
      | PERCENTAGE =>
          cases custom_splits with
          | none => simp [runSplit, PercentageSplit.split] at hr
          | some cs =>
              simp only [runSplit, PercentageSplit.split] at hr
              by_cases hemp : cs = []
              · simp [hemp] at hr
              · rw [if_neg hemp] at hr
                by_cases hsum : sumValues cs ≠ 100
                · rw [if_pos hsum] at hr
                  simp at hr
                · rw [if_neg hsum, Except.ok.injEq] at hr
                  subst hr
                  have hcs : (cs.map Prod.fst).Nodup := hc cs rfl
                  rw [pyDictComp_eq_self _ (by rw [map_fst_share]; exact hcs)]
                  rw [sumValues, map_snd_share, sum_map_share]
                  rw [not_ne_iff.mp hsum]
                  norm_num

/-- Witness for split_sum_law: the scenario A expense, an equal split of 300
over three users, whose shares 100 + 100 + 100 sum to the amount. -/
theorem split_sum_law_witness : sumValues expenseA.splits = expenseA.amount :=
  split_sum_law .EQUAL 0 300 [0, 1, 2] none expenseA (by decide)
    (by intro cs h; cases h)
    (by norm_num [mkExpense, runSplit, EqualSplit.split, pyDictComp, dictSet,
      expenseA])

/-- Claim C6. Whenever add_expense or settle_expense reports an error, the
group is returned exactly as it was: in the source every raise site runs
before the first mutation, so the expenses list, the balance sheet and all
user balance maps are untouched. -/
theorem error_atomicity :
    (∀ (g : UserGroup) (payer : Nat) (amount : ℚ) (split_type : String)
        (custom_splits : Option (Dict ℚ)) (e : Err),
      (g.add_expense payer amount split_type custom_splits).2 = some e →
      (g.add_expense payer amount split_type custom_splits).1 = g) ∧
    (∀ (g : UserGroup) (payer payee : Nat) (amount : ℚ) (e : Err),
      (g.settle_expense payer payee amount).2 = some e →
      (g.settle_expense payer payee amount).1 = g) := by
  constructor
  · intro g payer amount split_type custom_splits e h
    cases hs : SplitStrategy.get_strategy split_type with
    | error e' => simp [UserGroup.add_expense, hs]
    | ok strat =>
        cases hm : mkExpense payer amount g.users strat custom_splits with
        | error e' => simp [UserGroup.add_expense, hs, hm]
        | ok exp =>
            simp [UserGroup.add_expense, hs, hm] at h
  · intro g payer payee amount e h
    cases halg : g.settlement_algo with
    | HEAP_BASED => simp [UserGroup.settle_expense, halg]
    | BRUTE_FORCE =>
        cases hbs : dictLookup g.balance_sheet payer with
        | none =>
            simp [UserGroup.settle_expense, halg,
              BruteForceSettlement.settle, hbs]
        | some inner =>
            cases hin : dictLookup inner payee with
            | none =>
                simp [UserGroup.settle_expense, halg,
                  BruteForceSettlement.settle, hbs, hin]
            | some outst =>
                by_cases hge : outst ≥ amount
                · simp [UserGroup.settle_expense, halg,
                    BruteForceSettlement.settle, hbs, hin, hge] at h
                · simp [UserGroup.settle_expense, halg,
                    BruteForceSettlement.settle, hbs, hin, hge]

/-- Witness for error_atomicity: an EXACT expense with no custom shares
fails with MissingCustomShares and leaves the fresh demo group unchanged. -/
theorem error_atomicity_witness :
    (tripGroup.add_expense 0 100 "EXACT" none).1 = tripGroup :=
  error_atomicity.1 tripGroup 0 100 "EXACT" none .missingCustomShares rfl

/-- Claim C7 (amended). get_passbook returns a shallow copy: rebinding a
top-level key of the returned dict to a fresh dict, or deleting a top-level
key, leaves the balance sheet the ledger sees unchanged; the inner
per-debtor dicts, however, are shared, as the counterexample shows. -/
theorem passbook_shallow_copy (s : SheetRefs)
    (h : ∀ kv ∈ s.outer, kv.2 < s.store.length) (k : Nat) (d : Dict ℚ) :
    ledgerSheet (pbAssignOuter (mkPassbook s) k d) = SheetRefs.view s ∧
    ledgerSheet (pbDeleteOuter (mkPassbook s) k) = SheetRefs.view s := by
  constructor
  · simp only [ledgerSheet, pbAssignOuter, mkPassbook, SheetRefs.view]
    apply List.map_congr_left
    intro kv hmem
    rw [List.getD_append]
    exact h kv hmem
  · rfl

/-- Witness for passbook_shallow_copy at the scenario A reference sheet:
rebinding pb[Bob] leaves the ledger view intact. -/
theorem passbook_shallow_copy_witness :
    ledgerSheet (pbAssignOuter (mkPassbook sheetRefsA) 1 []) =
      SheetRefs.view sheetRefsA :=
  (passbook_shallow_copy sheetRefsA (by decide) 1 []).1

/-- Claim C8 (amended). PercentageSplit fails with MissingCustomShares when
custom_shares is absent, and likewise when it is empty; for a supplied
nonempty well-formed share dict it fails with PercentageSumMismatch exactly
when the percentages do not sum to 100, and otherwise returns the map
giving each listed participant percentage / 100 * amount. -/
theorem percentage_split_contract (payer : Nat) (amount : ℚ)
    (users : List Nat) (cs : Dict ℚ) (hne : cs ≠ [])
    (hw : (cs.map Prod.fst).Nodup) :
    PercentageSplit.split payer amount users none =
      .error .missingCustomShares ∧
    PercentageSplit.split payer amount users (some []) =
      .error .missingCustomShares ∧
    (sumValues cs ≠ 100 →
      PercentageSplit.split payer amount users (some cs) =
        .error .percentageSumMismatch) ∧
    (sumValues cs = 100 →
      PercentageSplit.split payer amount users (some cs) =
        .ok (cs.map (fun kv => (kv.1, kv.2 / 100 * amount)))) := by
  refine ⟨rfl, rfl, ?_, ?_⟩
  · intro hsum
    simp only [PercentageSplit.split]
    rw [if_neg hne, if_pos hsum]
  · intro hsum
    simp only [PercentageSplit.split]
    rw [if_neg hne, if_neg (not_ne_iff.mpr hsum)]
    rw [pyDictComp_eq_self _ (by rw [map_fst_share]; exact hw)]

/-- Witness for percentage_split_contract: shares of 40 and 60 percent over
an amount of 500 produce 200 and 300. -/
theorem percentage_split_contract_witness :
    PercentageSplit.split 0 500 [0, 1] (some [(0, 40), (1, 60)]) =
      .ok [(0, 200), (1, 300)] := by
  have h := (percentage_split_contract 0 500 [0, 1] [(0, 40), (1, 60)]
    (by simp) (by decide)).2.2.2 (by norm_num [sumValues])
  rw [h]
  norm_num

/-- Claim C10. A successful settle_expense(payer, payee, amount) under the
BRUTE_FORCE policy changes at most the balance-sheet entry [payer][payee],
the balance entry of the payee toward the payer, and the balance entry of
the payer toward the payee: the user list, the expense history, the policy,
every other balance-sheet entry (with its presence) and every other balance
value are unchanged. -/
theorem settle_frame (g : UserGroup) (p q : Nat) (a : ℚ)
    (halgo : g.settlement_algo = .BRUTE_FORCE)
    (hs : (g.settle_expense p q a).2 = none) :
    (g.settle_expense p q a).1.users = g.users ∧
    (g.settle_expense p q a).1.expenses = g.expenses ∧
    (g.settle_expense p q a).1.settlement_algo = g.settlement_algo ∧
    (∀ i j : Nat, ¬(i = p ∧ j = q) →
      bsLookup (g.settle_expense p q a).1.balance_sheet i j =
        bsLookup g.balance_sheet i j) ∧
    (∀ u k : Nat, ¬(u = q ∧ k = p) → ¬(u = p ∧ k = q) →
      bsGet (g.settle_expense p q a).1.balances u k = bsGet g.balances u k) := by
  obtain ⟨us, alg, bal, exps, bs⟩ := g
  simp only at halgo
  subst halgo
  cases hbs : dictLookup bs p with
  | none =>
      simp [UserGroup.settle_expense, BruteForceSettlement.settle, hbs] at hs
  | some inner =>
      cases hin : dictLookup inner q with
      | none =>
          simp [UserGroup.settle_expense, BruteForceSettlement.settle,
            hbs, hin] at hs
      | some outst =>
          by_cases hge : outst ≥ a
          · simp only [UserGroup.settle_expense, BruteForceSettlement.settle,
              hbs, hin, if_pos hge]
            refine ⟨trivial, trivial, trivial, ?_, ?_⟩
            · intro i j hij
              by_cases hi : i = p
              · subst hi
                have hj : j ≠ q := fun hj => hij ⟨rfl, hj⟩
                simp only [bsLookup, dictLookup_set_self, Option.some_bind,
                  hbs, dictLookup_set_ne _ _ _ _ hj]
              · simp only [bsLookup, dictLookup_set_ne _ _ _ _ hi]
            · intro u k h1 h2
              rw [bsGet_bsAdd_ne _ _ _ _ _ _ h2, bsGet_bsAdd_ne _ _ _ _ _ _ h1]
          · simp [UserGroup.settle_expense, BruteForceSettlement.settle,
              hbs, hin, if_neg hge] at hs

/-- Witness for settle_frame: settling 40 of the 100 Bob owes Alice leaves
the entry Charlie owes Alice at 30 and the balance of Alice toward Charlie
at 7. -/
theorem settle_frame_witness :
    bsLookup (frameW.settle_expense 1 0 40).1.balance_sheet 2 0 = some 30 ∧
    bsGet (frameW.settle_expense 1 0 40).1.balances 0 2 = 7 := by
  have h := settle_frame frameW 1 0 40 rfl
    (by norm_num [frameW, UserGroup.settle_expense,
      BruteForceSettlement.settle, dictLookup])
  constructor
  · rw [h.2.2.2.1 2 0 (by decide)]
    rfl
  · rw [h.2.2.2.2 0 2 (by decide) (by decide)]
    rfl
